import Mathlib

/-!
Shallow embedding of the pointer-driven annotation state machine of
`src/App.tsx` (PDF-Annotator): geometry on two-corner boxes, the field
store, and the mouse-event handlers, together with theorems settling the
specification's claims about them.

Coordinates are modelled as rationals (the source works with JS numbers
holding pointer coordinates).
-/

namespace PdfAnnotator

/-- A 2-D point, source `interface Point` with numeric fields x and y. -/
structure Point where
  x : ℚ
  y : ℚ
deriving DecidableEq, Repr

/-- A two-corner axis-aligned box, source `interface Box` with corner points a and b.
Not normalized: `a` need not be the top-left corner. -/
structure Box where
  a : Point
  b : Point
deriving DecidableEq, Repr

/-- A committed annotation field together with its selection flag, source
`Field` extended with its boolean `selected` flag (the element type of the
`fields` state).
Identifiers are modelled as naturals standing in for the uuid strings. -/
structure Field where
  page : Nat
  box : Box
  id : Nat
  selected : Bool
deriving DecidableEq, Repr

/-- Absolute value as computed by `Math.abs`, written so that the kernel can
evaluate it on concrete rationals. -/
def mathAbs (q : ℚ) : ℚ := if q < 0 then -q else q

/-- Source `size`: width times height of the bounding box,
`Math.abs(a.x - b.x) * Math.abs(a.y - b.y)`. -/
def size (box : Box) : ℚ :=
  let width := mathAbs (box.a.x - box.b.x)
  let height := mathAbs (box.a.y - box.b.y)
  width * height

/-- Source `tooSmall`: a box is degenerate when its area is strictly below 200. -/
def tooSmall (box : Box) : Bool := size box < 200

/-- The event target as far as the handlers inspect it: the only property the
source reads is `classList.contains('sb')`, i.e. whether the element is the
delete control. -/
structure EventTarget where
  isDeleteControl : Bool
deriving DecidableEq, Repr

/-- A mouse event as consumed by the handlers: screen coordinates and an
optional target (`ev.target` may be null). -/
structure MouseEvent where
  clientX : ℚ
  clientY : ℚ
  target : Option EventTarget
deriving DecidableEq, Repr

/-- The on-screen bounding rectangle of the page container
(`container.getBoundingClientRect()`), as far as the source reads it. -/
structure ContainerRect where
  left : ℚ
  top : ℚ
deriving DecidableEq, Repr

/-- Source `mousePositionWithinContainer`: subtract the container's on-screen
top-left offset from the pointer's screen position. (The source annotates the
return type as nullable but the body always returns a point.) -/
def mousePositionWithinContainer (ev : MouseEvent) (container : ContainerRect) : Point :=
  { x := ev.clientX - container.left, y := ev.clientY - container.top }

/-- The mutable state of the `App` component that the gesture handlers read and
write: current page, the two drag points, and the field store. -/
structure AppState where
  pageNumber : Nat
  firstPoint : Option Point
  secondPoint : Option Point
  fields : List Field
deriving DecidableEq, Repr

/-- Source `hasSelectedField`: derived boolean, true iff
`fields.find((field) => field.selected)` is defined. -/
def hasSelectedField (fields : List Field) : Bool :=
  (fields.find? (fun field => field.selected)).isSome

/-- Source `BoxElement` `onClick` wiring in `App`: clicking the field with
identifier `targetId` marks exactly the matching fields selected and every
other field deselected. -/
def selectField (targetId : Nat) (fields : List Field) : List Field :=
  fields.map (fun prevField => { prevField with selected := prevField.id == targetId })

/-- Source `deleteSelf` wiring in `App`: remove the field with the given
identifier from the store. -/
def removeField (targetId : Nat) (fields : List Field) : List Field :=
  fields.filter (fun prevField => prevField.id != targetId)

/-- The deselect-all transformation the source writes inline (the same lambda)
in both `commitNewZone` and `mouseMoveListener`: map every field to a copy
whose `selected` flag is false. -/
def deselectAll (fields : List Field) : List Field :=
  fields.map (fun prevField => { prevField with selected := false })

/-- Source `commitNewZone` (the mouseup handler). `newId` stands for the fresh
`uuid()` drawn in the append branch. Mirrors the source's early returns: when
either drag point is null, or when the degenerate-with-selection branch finds a
null target, the handler returns without touching any state. -/
def commitNewZone (newId : Nat) (ev : MouseEvent) (s : AppState) : AppState :=
  match s.secondPoint, s.firstPoint with
  | some secondPoint, some firstPoint =>
    if !tooSmall { a := firstPoint, b := secondPoint } then
      { s with
        fields := s.fields ++
          [{ page := s.pageNumber, id := newId,
             box := { a := firstPoint, b := secondPoint }, selected := false }],
        firstPoint := none, secondPoint := none }
    else if hasSelectedField s.fields then
      match ev.target with
      | none => s
      | some target =>
        if !target.isDeleteControl then
          { s with fields := deselectAll s.fields,
                   firstPoint := none, secondPoint := none }
        else
          { s with firstPoint := none, secondPoint := none }
    else
      { s with firstPoint := none, secondPoint := none }
  | _, _ => s

/-- Source `mouseDownListener`: ignored when the target is null or a drag is
already in progress; otherwise records the local position as `firstPoint`. -/
def mouseDownListener (ev : MouseEvent) (pageRef : ContainerRect) (s : AppState) : AppState :=
  match ev.target with
  | none => s
  | some _ =>
    match s.firstPoint with
    | some _ => s
    | none =>
      { s with firstPoint := some (mousePositionWithinContainer ev pageRef) }

/-- Source `mouseMoveListener`: ignored when the target is null; otherwise
records the local position as `secondPoint`, and, when a drag is active and
some field is selected, deselects every field. -/
def mouseMoveListener (ev : MouseEvent) (pageRef : ContainerRect) (s : AppState) : AppState :=
  match ev.target with
  | none => s
  | some _ =>
    let mousePosition := mousePositionWithinContainer ev pageRef
    let s := { s with secondPoint := some mousePosition }
    if s.firstPoint.isSome && hasSelectedField s.fields then
      { s with fields := deselectAll s.fields }
    else
      s

/-- The append performed by the commit branch of `commitNewZone`, as a store
operation: a new field on the given page with the given box, `selected = false`. -/
def appendField (page : Nat) (box : Box) (newId : Nat) (fields : List Field) : List Field :=
  fields ++ [{ page := page, id := newId, box := box, selected := false }]

/-- The part of a field that never changes after commit: identifier, page and
box — everything but the `selected` flag. -/
def fieldCore (f : Field) : Nat × Nat × Box := (f.id, f.page, f.box)

/-- The field stores reachable from the empty store by the operations the
source performs on `fields`: the commit append (with a fresh identifier,
modelling `uuid()`), selecting one field, deselecting all, and removing one
field. -/
inductive StoreReachable : List Field → Prop
  | empty : StoreReachable []
  | commit (fields : List Field) (page : Nat) (box : Box) (newId : Nat)
      (fresh : ∀ f ∈ fields, f.id ≠ newId) (h : StoreReachable fields) :
      StoreReachable (appendField page box newId fields)
  | select (fields : List Field) (targetId : Nat) (h : StoreReachable fields) :
      StoreReachable (selectField targetId fields)
  | deselect (fields : List Field) (h : StoreReachable fields) :
      StoreReachable (deselectAll fields)
  | remove (fields : List Field) (targetId : Nat) (h : StoreReachable fields) :
      StoreReachable (removeField targetId fields)

/-! Concrete sample data used by counterexamples and witnesses. -/

/-- A release/click target on the page canvas (no `sb` class). -/
def canvasTarget : EventTarget := { isDeleteControl := false }

/-- A release/click target on a delete control (`classList` contains `sb`). -/
def deleteTarget : EventTarget := { isDeleteControl := true }

/-- A sample event at screen position (50, 50) on the canvas. -/
def canvasEvent : MouseEvent := { clientX := 50, clientY := 50, target := some canvasTarget }

/-- A sample event whose target cannot be resolved. -/
def nullTargetEvent : MouseEvent := { clientX := 50, clientY := 50, target := none }

/-- A container whose top-left corner sits at the screen origin. -/
def originRect : ContainerRect := { left := 0, top := 0 }

/-- A sample committed field on page 1 that is currently selected. -/
def selectedSample : Field :=
  { page := 1, box := { a := { x := 0, y := 0 }, b := { x := 30, y := 30 } },
    id := 3, selected := true }

/-- A sample state in the middle of a large drag from (0,0) to (50,50), with
one selected field in the store. -/
def draggingState : AppState :=
  { pageNumber := 1, firstPoint := some { x := 0, y := 0 },
    secondPoint := some { x := 50, y := 50 }, fields := [selectedSample] }

/-- A sample state in the middle of a tiny drag from (0,0) to (1,1), with one
selected field in the store. -/
def tinyDragState : AppState :=
  { pageNumber := 1, firstPoint := some { x := 0, y := 0 },
    secondPoint := some { x := 1, y := 1 }, fields := [selectedSample] }

/-- A sample state after a press at (3,3) with no move yet: `secondPoint` is
still absent, and a selected field sits in the store. -/
def pressedState : AppState :=
  { pageNumber := 1, firstPoint := some { x := 3, y := 3 },
    secondPoint := none, fields := [selectedSample] }

/-- A sample idle state: no drag in progress, one selected field. -/
def idleState : AppState :=
  { pageNumber := 1, firstPoint := none, secondPoint := none, fields := [selectedSample] }

/-- A sample box used by the reachable sample store. -/
def sampleBox : Box := { a := { x := 0, y := 0 }, b := { x := 30, y := 30 } }

/-- A sample store reached from the empty store by committing a field on page 1
(identifier 5), committing a field on page 2 (identifier 6), and then clicking
the first field. -/
def sampleStore : List Field :=
  selectField 5 (appendField 2 sampleBox 6 (appendField 1 sampleBox 5 []))

/-! Basic lemmas about the geometry, the handlers and the store operations. -/

theorem mathAbs_eq_abs (q : ℚ) : mathAbs q = |q| := by
  unfold mathAbs
  rcases le_or_lt 0 q with h | h
  · rw [if_neg (not_lt.mpr h), abs_of_nonneg h]
  · rw [if_pos h, abs_of_neg h]

theorem mem_deselectAll (fields : List Field) (f : Field) (hf : f ∈ deselectAll fields) :
    f.selected = false := by
  simp only [deselectAll, List.mem_map] at hf
  obtain ⟨g, -, rfl⟩ := hf
  rfl

theorem hasSelectedField_false_iff (fields : List Field) :
    hasSelectedField fields = false ↔ ∀ f ∈ fields, f.selected = false := by
  simp [hasSelectedField, List.find?_isSome]

theorem hasSelectedField_true_iff (fields : List Field) :
    hasSelectedField fields = true ↔ ∃ f ∈ fields, f.selected = true := by
  simp [hasSelectedField, List.find?_isSome]

theorem deselectAll_map_fieldCore (fields : List Field) :
    (deselectAll fields).map fieldCore = fields.map fieldCore := by
  unfold deselectAll
  rw [List.map_map]
  rfl

theorem selectField_map_fieldCore (targetId : Nat) (fields : List Field) :
    (selectField targetId fields).map fieldCore = fields.map fieldCore := by
  unfold selectField
  rw [List.map_map]
  rfl

theorem selectField_map_id (targetId : Nat) (fields : List Field) :
    (selectField targetId fields).map (fun f => f.id) = fields.map (fun f => f.id) := by
  unfold selectField
  rw [List.map_map]
  rfl

theorem countP_selected_selectField (targetId : Nat) (fields : List Field) :
    (selectField targetId fields).countP (fun f => f.selected)
      = fields.countP (fun f => f.id == targetId) := by
  unfold selectField
  rw [List.countP_map]
  rfl

theorem countP_id_beq_le_one (fields : List Field) (targetId : Nat)
    (h : (fields.map (fun f => f.id)).Nodup) :
    fields.countP (fun f => f.id == targetId) ≤ 1 := by
  induction fields with
  | nil => simp
  | cons f fs ih =>
    rw [List.map_cons, List.nodup_cons] at h
    rw [List.countP_cons]
    by_cases hb : f.id = targetId
    · have hzero : fs.countP (fun g => g.id == targetId) = 0 := by
        rw [List.countP_eq_zero]
        intro g hg
        simp only [beq_iff_eq]
        intro hgid
        exact h.1 (List.mem_map.mpr ⟨g, hg, by rw [hgid, hb]⟩)
      simp [hzero, hb]
    · simpa [hb] using ih h.2

theorem commitNewZone_fields_deselected (newId : Nat) (ev : MouseEvent) (s : AppState)
    (h : ∀ f ∈ s.fields, f.selected = false) :
    ∀ f ∈ (commitNewZone newId ev s).fields, f.selected = false := by
  unfold commitNewZone
  split
  · split
    · intro f hf
      simp only [List.mem_append, List.mem_singleton] at hf
      rcases hf with hf | rfl
      · exact h f hf
      · rfl
    · split
      · split
        · exact h
        · split
          · exact fun f hf => mem_deselectAll _ f hf
          · exact h
      · exact h
  · exact h

theorem commitNewZone_degenerate_fields (newId : Nat) (ev : MouseEvent) (s : AppState)
    (fp sp : Point) (hfp : s.firstPoint = some fp) (hsp : s.secondPoint = some sp)
    (hts : tooSmall { a := fp, b := sp } = true) :
    (commitNewZone newId ev s).fields = s.fields
    ∨ (commitNewZone newId ev s).fields = deselectAll s.fields := by
  unfold commitNewZone
  rw [hsp, hfp]
  simp only [hts, Bool.not_true, Bool.false_eq_true, if_false]
  split
  · split
    · exact Or.inl rfl
    · split
      · exact Or.inr rfl
      · exact Or.inl rfl
  · exact Or.inl rfl

/-- The invariant maintained by every store operation: identifiers are
pairwise distinct and at most one field is selected. -/
def storeOk (fields : List Field) : Prop :=
  (fields.map (fun f => f.id)).Nodup ∧ fields.countP (fun f => f.selected) ≤ 1

theorem storeOk_of_reachable (fields : List Field) (h : StoreReachable fields) :
    storeOk fields := by
  induction h with
  | empty => exact ⟨List.nodup_nil, by simp⟩
  | commit fs page box newId fresh h ih =>
    obtain ⟨hn, hc⟩ := ih
    constructor
    · have hmap : (appendField page box newId fs).map (fun f => f.id)
          = fs.map (fun f => f.id) ++ [newId] := by
        simp [appendField]
      rw [hmap]
      refine List.Nodup.append hn (List.nodup_singleton newId) ?_
      intro a ha hb
      simp only [List.mem_singleton] at hb
      subst hb
      obtain ⟨f, hf, hfid⟩ := List.mem_map.mp ha
      exact fresh f hf hfid
    · have : (appendField page box newId fs).countP (fun f => f.selected)
          = fs.countP (fun f => f.selected) := by
        simp [appendField, List.countP_append]
      rw [this]
      exact hc
  | select fs targetId h ih =>
    refine ⟨?_, ?_⟩
    · rw [selectField_map_id]
      exact ih.1
    · rw [countP_selected_selectField]
      exact countP_id_beq_le_one fs targetId ih.1
  | deselect fs h ih =>
    refine ⟨?_, ?_⟩
    · unfold deselectAll
      rw [List.map_map]
      exact ih.1
    · have hz : (deselectAll fs).countP (fun f => f.selected) = 0 := by
        rw [List.countP_eq_zero]
        intro f hf
        simp [mem_deselectAll fs f hf]
      simp [hz]
  | remove fs targetId h ih =>
    obtain ⟨hn, hc⟩ := ih
    refine ⟨?_, ?_⟩
    · exact hn.sublist ((List.filter_sublist fs).map (fun f => f.id))
    · exact le_trans ((List.filter_sublist fs).countP_le (fun f => f.selected)) hc

/-! Theorems settling the specification claims. -/

/-- Claim C3, counterexample: the box with corners (0,0) and (10,20) has area
exactly 200 yet `tooSmall` classifies it as NOT degenerate, contradicting the
claim that area exactly 200 is degenerate. -/
theorem area_exactly_200_not_tooSmall :
    size { a := { x := 0, y := 0 }, b := { x := 10, y := 20 } } = 200
    ∧ tooSmall { a := { x := 0, y := 0 }, b := { x := 10, y := 20 } } = false := by
  exact ⟨by norm_num [size, mathAbs], by norm_num [tooSmall, size, mathAbs]⟩

/-- Claim C3 (amended): the `<` comparison is strict, so a box is degenerate
exactly when its area is strictly below 200; a box of area exactly 200 is not
degenerate, and neither is one of area 201. -/
theorem tooSmall_iff_size_lt_200 (box : Box) : tooSmall box = true ↔ size box < 200 := by
  simp [tooSmall]

/-- Claim C1, counterexample: a release processed while a drag is in progress
(`firstPoint` set) but with `secondPoint` still absent hits the early return of
`commitNewZone`, so `firstPoint` is NOT cleared, contradicting the claim that
both points are null after every release processed during a drag. -/
theorem release_without_secondPoint_keeps_firstPoint :
    (commitNewZone 7 canvasEvent pressedState).firstPoint ≠ none := by
  simp [commitNewZone, pressedState]

/-- Claim C1 (amended): a release processed while both drag points are set and
whose target resolves returns the machine to Idle — both points are cleared —
in every branch; but when `secondPoint` is absent the handler returns early and
the whole state, `firstPoint` included, is left untouched. -/
theorem release_clears_drag_points (newId : Nat) (ev : MouseEvent) (s : AppState)
    (t : EventTarget) (ht : ev.target = some t) (h1 : s.firstPoint.isSome = true) :
    (s.secondPoint.isSome = true →
      (commitNewZone newId ev s).firstPoint = none
      ∧ (commitNewZone newId ev s).secondPoint = none)
    ∧ (s.secondPoint = none → commitNewZone newId ev s = s) := by
  obtain ⟨fp, hfp⟩ := Option.isSome_iff_exists.mp h1
  constructor
  · intro h2
    obtain ⟨sp, hsp⟩ := Option.isSome_iff_exists.mp h2
    unfold commitNewZone
    rw [hsp, hfp]
    simp only []
    split
    · exact ⟨rfl, rfl⟩
    · split
      · simp only [ht]
        split
        · exact ⟨rfl, rfl⟩
        · exact ⟨rfl, rfl⟩
      · exact ⟨rfl, rfl⟩
  · intro h2
    unfold commitNewZone
    rw [h2]

/-- Witness for the amended claim C1 at the concrete dragging state. -/
theorem release_clears_drag_points_witness :
    canvasEvent.target = some canvasTarget
    ∧ draggingState.firstPoint.isSome = true
    ∧ ((draggingState.secondPoint.isSome = true →
        (commitNewZone 7 canvasEvent draggingState).firstPoint = none
        ∧ (commitNewZone 7 canvasEvent draggingState).secondPoint = none)
      ∧ (draggingState.secondPoint = none → commitNewZone 7 canvasEvent draggingState
          = draggingState)) :=
  ⟨rfl, rfl, release_clears_drag_points 7 canvasEvent draggingState canvasTarget rfl rfl⟩

/-- Claim C2, counterexample: on a release with `firstPoint` set but
`secondPoint` absent, a selected field, and a canvas (non-delete) target,
`commitNewZone` returns early, so the selection is NOT cleared, contradicting
the claim that such a motionless click clears the selection. -/
theorem motionless_release_keeps_selection :
    hasSelectedField (commitNewZone 7 canvasEvent pressedState).fields = true := by
  rfl

/-- Claim C2 (amended): a release with `firstPoint` set but `secondPoint`
absent hits the `secondPoint === null` early return of `commitNewZone` and
changes nothing at all — no selection clearing happens, and even the drag
state is kept. -/
theorem motionless_release_is_noop (newId : Nat) (ev : MouseEvent) (s : AppState)
    (h : s.secondPoint = none) : commitNewZone newId ev s = s := by
  unfold commitNewZone
  rw [h]

/-- Witness for the amended claim C2 at the concrete pressed state. -/
theorem motionless_release_is_noop_witness :
    pressedState.secondPoint = none
    ∧ commitNewZone 7 canvasEvent pressedState = pressedState :=
  ⟨rfl, motionless_release_is_noop 7 canvasEvent pressedState rfl⟩

/-- Claim C4, counterexample: a move event delivered while the machine is Idle
(`firstPoint` null) does NOT leave the state unchanged — `mouseMoveListener`
overwrites `secondPoint` with the current local position even when no drag is
active. -/
theorem move_while_idle_sets_secondPoint :
    (mouseMoveListener canvasEvent originRect idleState).secondPoint ≠ idleState.secondPoint := by
  simp [mouseMoveListener, idleState, canvasEvent, originRect]

/-- Claim C4 (amended): a move while Idle leaves `fields` and `firstPoint`
unchanged (and a null-target move changes nothing), but when the target
resolves it does overwrite `secondPoint` with the current local position. -/
theorem move_while_idle_frame (ev : MouseEvent) (rect : ContainerRect) (s : AppState)
    (h : s.firstPoint = none) :
    (mouseMoveListener ev rect s).fields = s.fields
    ∧ (mouseMoveListener ev rect s).firstPoint = none
    ∧ (ev.target = none → mouseMoveListener ev rect s = s)
    ∧ (∀ t, ev.target = some t →
        (mouseMoveListener ev rect s).secondPoint
          = some (mousePositionWithinContainer ev rect)) := by
  unfold mouseMoveListener
  cases ht : ev.target
  · simp [h]
  · simp [h]

/-- Witness for the amended claim C4 at the concrete idle state. -/
theorem move_while_idle_frame_witness :
    idleState.firstPoint = none
    ∧ ((mouseMoveListener canvasEvent originRect idleState).fields = idleState.fields
      ∧ (mouseMoveListener canvasEvent originRect idleState).firstPoint = none
      ∧ (canvasEvent.target = none → mouseMoveListener canvasEvent originRect idleState
          = idleState)
      ∧ (∀ t, canvasEvent.target = some t →
          (mouseMoveListener canvasEvent originRect idleState).secondPoint
            = some (mousePositionWithinContainer canvasEvent originRect))) :=
  ⟨rfl, move_while_idle_frame canvasEvent originRect idleState rfl⟩

/-- Claim C5, counterexample: a non-degenerate release whose target is null
still commits — `commitNewZone` never inspects the target in the commit
branch, so the store grows by one field, contradicting the claim that
null-target events cause no state change at all. -/
theorem null_target_release_still_commits :
    (commitNewZone 7 nullTargetEvent draggingState).fields.length
      = draggingState.fields.length + 1 := by
  norm_num [commitNewZone, draggingState, nullTargetEvent, selectedSample,
    tooSmall, size, mathAbs]

/-- Claim C5 (amended): press and move events with a null target are silently
ignored, and a degenerate release with a selection aborts on a null target
(changing nothing, not even the drag points); but a non-degenerate release
commits regardless of the target. -/
theorem null_target_noop_policy (ev : MouseEvent) (rect : ContainerRect) (s : AppState)
    (newId : Nat) (fp sp : Point) (hd : ev.target = none)
    (hfp : s.firstPoint = some fp) (hsp : s.secondPoint = some sp)
    (hts : tooSmall { a := fp, b := sp } = true)
    (hsel : hasSelectedField s.fields = true) :
    mouseDownListener ev rect s = s
    ∧ mouseMoveListener ev rect s = s
    ∧ commitNewZone newId ev s = s := by
  refine ⟨?_, ?_, ?_⟩
  · unfold mouseDownListener
    rw [hd]
  · unfold mouseMoveListener
    rw [hd]
  · unfold commitNewZone
    rw [hsp, hfp]
    simp [hts, hsel, hd]

/-- Witness for the amended claim C5 at the concrete tiny-drag state. -/
theorem null_target_noop_policy_witness :
    nullTargetEvent.target = none
    ∧ tinyDragState.firstPoint = some { x := 0, y := 0 }
    ∧ tinyDragState.secondPoint = some { x := 1, y := 1 }
    ∧ tooSmall { a := { x := 0, y := 0 }, b := { x := 1, y := 1 } } = true
    ∧ hasSelectedField tinyDragState.fields = true
    ∧ (mouseDownListener nullTargetEvent originRect tinyDragState = tinyDragState
      ∧ mouseMoveListener nullTargetEvent originRect tinyDragState = tinyDragState
      ∧ commitNewZone 7 nullTargetEvent tinyDragState = tinyDragState) :=
  ⟨rfl, rfl, rfl, by norm_num [tooSmall, size, mathAbs], rfl,
    null_target_noop_policy nullTargetEvent originRect tinyDragState 7
      { x := 0, y := 0 } { x := 1, y := 1 } rfl rfl rfl
      (by norm_num [tooSmall, size, mathAbs]) rfl⟩

/-- Claim C6: in every store reachable by the store operations (commit append
with a fresh identifier, select, deselect all, remove), at most one field is
selected; and selecting a field makes exactly the fields with the clicked
identifier selected and every other field — on any page — deselected. -/
theorem at_most_one_selected (fields : List Field) (h : StoreReachable fields) :
    fields.countP (fun f => f.selected) ≤ 1
    ∧ ∀ targetId : Nat,
        (selectField targetId fields).countP (fun f => f.selected) ≤ 1
        ∧ ∀ f ∈ selectField targetId fields, f.selected = (f.id == targetId) := by
  refine ⟨(storeOk_of_reachable fields h).2, fun targetId => ⟨?_, ?_⟩⟩
  · exact (storeOk_of_reachable _ (StoreReachable.select fields targetId h)).2
  · intro f hf
    simp only [selectField, List.mem_map] at hf
    obtain ⟨g, -, rfl⟩ := hf
    rfl

/-- Witness for claim C6 at the concrete sample store: two committed fields on
pages 1 and 2, the first one selected by a click. -/
theorem at_most_one_selected_witness :
    StoreReachable sampleStore
    ∧ (sampleStore.countP (fun f => f.selected) ≤ 1
      ∧ ∀ targetId : Nat,
          (selectField targetId sampleStore).countP (fun f => f.selected) ≤ 1
          ∧ ∀ f ∈ selectField targetId sampleStore, f.selected = (f.id == targetId)) := by
  have hfresh : ∀ f ∈ appendField 1 sampleBox 5 [], f.id ≠ 6 := by
    intro f hf
    simp only [appendField, List.nil_append, List.mem_singleton] at hf
    subst hf
    decide
  have h : StoreReachable sampleStore :=
    StoreReachable.select _ 5
      (StoreReachable.commit _ 2 sampleBox 6 hfresh
        (StoreReachable.commit _ 1 sampleBox 5 (by simp) StoreReachable.empty))
  exact ⟨h, at_most_one_selected sampleStore h⟩

/-- Claim C7: a release while dragging with both points set and a
non-degenerate candidate box appends exactly one new field — tagged with the
current page, carrying the candidate box, not selected — and leaves every
existing field, its selection flag included, unchanged. -/
theorem nondegenerate_release_commits (newId : Nat) (ev : MouseEvent) (s : AppState)
    (fp sp : Point) (hfp : s.firstPoint = some fp) (hsp : s.secondPoint = some sp)
    (hts : tooSmall { a := fp, b := sp } = false) :
    (commitNewZone newId ev s).fields
      = s.fields ++ [{ page := s.pageNumber, id := newId,
                       box := { a := fp, b := sp }, selected := false }] := by
  unfold commitNewZone
  rw [hsp, hfp]
  simp [hts]

/-- Witness for claim C7 at the concrete dragging state. -/
theorem nondegenerate_release_commits_witness :
    draggingState.firstPoint = some { x := 0, y := 0 }
    ∧ draggingState.secondPoint = some { x := 50, y := 50 }
    ∧ tooSmall { a := { x := 0, y := 0 }, b := { x := 50, y := 50 } } = false
    ∧ (commitNewZone 7 canvasEvent draggingState).fields
        = draggingState.fields
          ++ [{ page := draggingState.pageNumber, id := 7,
                box := { a := { x := 0, y := 0 }, b := { x := 50, y := 50 } },
                selected := false }] :=
  ⟨rfl, rfl, by norm_num [tooSmall, size, mathAbs],
    nondegenerate_release_commits 7 canvasEvent draggingState
      { x := 0, y := 0 } { x := 50, y := 50 } rfl rfl
      (by norm_num [tooSmall, size, mathAbs])⟩

/-- Claim C8: a move processed while a drag is active and some field is
selected deselects every field, and the deselection persists through the
subsequent release — whatever its outcome, in particular when the drag ends
degenerate and nothing is committed. -/
theorem move_during_drag_deselects (ev : MouseEvent) (rect : ContainerRect) (s : AppState)
    (t : EventTarget) (ht : ev.target = some t) (h1 : s.firstPoint.isSome = true)
    (h2 : hasSelectedField s.fields = true) :
    (∀ f ∈ (mouseMoveListener ev rect s).fields, f.selected = false)
    ∧ ∀ newId ev2,
        ∀ f ∈ (commitNewZone newId ev2 (mouseMoveListener ev rect s)).fields,
          f.selected = false := by
  have hmv : (mouseMoveListener ev rect s).fields = deselectAll s.fields := by
    unfold mouseMoveListener
    simp [ht, h1, h2]
  constructor
  · rw [hmv]
    exact fun f hf => mem_deselectAll _ f hf
  · intro newId ev2
    apply commitNewZone_fields_deselected
    rw [hmv]
    exact fun f hf => mem_deselectAll _ f hf

/-- Witness for claim C8 at the concrete dragging state. -/
theorem move_during_drag_deselects_witness :
    canvasEvent.target = some canvasTarget
    ∧ draggingState.firstPoint.isSome = true
    ∧ hasSelectedField draggingState.fields = true
    ∧ ((∀ f ∈ (mouseMoveListener canvasEvent originRect draggingState).fields,
          f.selected = false)
      ∧ ∀ newId ev2,
          ∀ f ∈ (commitNewZone newId ev2
              (mouseMoveListener canvasEvent originRect draggingState)).fields,
            f.selected = false) :=
  ⟨rfl, rfl, rfl,
    move_during_drag_deselects canvasEvent originRect draggingState canvasTarget rfl rfl rfl⟩

/-- Claim C10: every selection-changing operation — clicking a field, the
deselection on move, and the deselection on a degenerate release — preserves
the store's length, order, and each field's identifier, page and box; only
the `selected` flags may differ. -/
theorem selection_ops_preserve_fields (fields : List Field) (targetId : Nat)
    (ev : MouseEvent) (rect : ContainerRect) (s : AppState) (newId : Nat) (fp sp : Point)
    (hfp : s.firstPoint = some fp) (hsp : s.secondPoint = some sp)
    (hts : tooSmall { a := fp, b := sp } = true) :
    (selectField targetId fields).map fieldCore = fields.map fieldCore
    ∧ (deselectAll fields).map fieldCore = fields.map fieldCore
    ∧ ((mouseMoveListener ev rect s).fields).map fieldCore = s.fields.map fieldCore
    ∧ ((commitNewZone newId ev s).fields).map fieldCore = s.fields.map fieldCore := by
  refine ⟨selectField_map_fieldCore targetId fields, deselectAll_map_fieldCore fields, ?_, ?_⟩
  · unfold mouseMoveListener
    split
    · rfl
    · dsimp only
      split
      · exact deselectAll_map_fieldCore s.fields
      · rfl
  · rcases commitNewZone_degenerate_fields newId ev s fp sp hfp hsp hts with hcase | hcase
    · rw [hcase]
    · rw [hcase]
      exact deselectAll_map_fieldCore s.fields

/-- Witness for claim C10 at the concrete tiny-drag state. -/
theorem selection_ops_preserve_fields_witness :
    tinyDragState.firstPoint = some { x := 0, y := 0 }
    ∧ tinyDragState.secondPoint = some { x := 1, y := 1 }
    ∧ tooSmall { a := { x := 0, y := 0 }, b := { x := 1, y := 1 } } = true
    ∧ ((selectField 3 [selectedSample]).map fieldCore = [selectedSample].map fieldCore
      ∧ (deselectAll [selectedSample]).map fieldCore = [selectedSample].map fieldCore
      ∧ ((mouseMoveListener canvasEvent originRect tinyDragState).fields).map fieldCore
          = tinyDragState.fields.map fieldCore
      ∧ ((commitNewZone 7 canvasEvent tinyDragState).fields).map fieldCore
          = tinyDragState.fields.map fieldCore) :=
  ⟨rfl, rfl, by norm_num [tooSmall, size, mathAbs],
    selection_ops_preserve_fields [selectedSample] 3 canvasEvent originRect tinyDragState 7
      { x := 0, y := 0 } { x := 1, y := 1 } rfl rfl
      (by norm_num [tooSmall, size, mathAbs])⟩

/-- Claim C9: `size` computes the product of the absolute coordinate
differences, and it is invariant both under swapping the two corners and under
swapping the x and y coordinates of both corners. -/
theorem size_abs_and_symmetries (box : Box) :
    size box = |box.a.x - box.b.x| * |box.a.y - box.b.y|
    ∧ size { a := box.b, b := box.a } = size box
    ∧ size { a := { x := box.a.y, y := box.a.x }, b := { x := box.b.y, y := box.b.x } }
        = size box := by
  refine ⟨by simp [size, mathAbs_eq_abs], by simp [size, mathAbs_eq_abs, abs_sub_comm], ?_⟩
  simp only [size, mathAbs_eq_abs]
  ring

end PdfAnnotator
